import Mathlib

/-!
Verification development for the Byte-Explainer model definition
(`model.py`).  The Python code is a stack of PyTorch modules; we embed it
shallowly:

* construction-time behaviour (asserts, Python `%` on zero, PyTorch
  slice-assignment and broadcasting shape checks) is modelled by
  computable `Option`-returning builders over `Nat` shapes;
* forward-pass numerics (softmax, layer normalization, sinusoidal
  positional encodings, sigmoid) are modelled over `ℝ`.

Tensors are modelled as functions from index types; a shape-level tensor
is just its shape triple `(batch, len, width)`.
-/

namespace ByteExplainer

/-- Python `%`: raises `ZeroDivisionError` on a zero divisor, hence `none`. -/
def pymod (a b : ℕ) : Option ℕ :=
  if b = 0 then none else some (a % b)

/-- Shape-level `MultiHeadAttentionBlock.__init__`: runs
`assert d_model % h == 0` and on success records `(d_model, d_k)` with
`d_k = d_model // h`.  A failing assert (or `ZeroDivisionError` when
`h = 0`) is `none`. -/
def mkMHA (d_model h : ℕ) : Option (ℕ × ℕ) :=
  match pymod d_model h with
  | none => none
  | some r => if r = 0 then some (d_model, d_model / h) else none

/-- PyTorch broadcasting of one dimension pair: sizes must be equal or one
of them must be `1` (a size-1 dimension stretches to the other size,
including to `0`). -/
def broadcastDim (a b : ℕ) : Option ℕ :=
  if a = b then some a
  else if a = 1 then some b
  else if b = 1 then some a
  else none

/-- Shape check of `PositionalEncoding.__init__`.
`div_term` has `⌈d_model/2⌉ = (d_model+1)/2` entries, the even-column
slice `pe[:, 0::2]` has `(d_model+1)/2` columns and the odd-column slice
`pe[:, 1::2]` has `d_model/2` columns.  Each slice assignment copies an
RHS of width `(d_model+1)/2`, which broadcasts into the slice iff the
widths agree or the RHS width is `1`.  The `-math.log(10000.0) / d_model`
term raises `ZeroDivisionError` when `d_model = 0`. -/
def peBuildOk (d_model : ℕ) : Bool :=
  decide (d_model ≠ 0)
    && (decide ((d_model + 1) / 2 = (d_model + 1) / 2) || decide ((d_model + 1) / 2 = 1))
    && (decide ((d_model + 1) / 2 = d_model / 2) || decide ((d_model + 1) / 2 = 1))

/-- Shape-level `PositionalEncoding.__init__`: on success the module holds
a table of shape `(seq_len, d_model)`. -/
def mkPEshape (d_model seq_len : ℕ) : Option (ℕ × ℕ) :=
  if peBuildOk d_model then some (seq_len, d_model) else none

/-- Shape-level view of a constructed `Transformer`: the optional
embedding `(vocab_size, d_model)`, the positional table shape
`(seq_len, d_model)`, the encoder feature width, and the optional
projection `(in_features, out_features)`. -/
structure TransformerS where
  seq_embed : Option (ℕ × ℕ)
  seq_pos : ℕ × ℕ
  encoderWidth : ℕ
  projection_layer : Option (ℕ × ℕ)
deriving DecidableEq

/-- Shape-level `build_transformer` (arguments in source order, with the
float `dropout` omitted since no construction-time check reads it):
builds the byte-level transformer (embedding, positional table of length
`seq_seq_len`, `N` encoder blocks, projection `2*d_model → class_size`
unless `header`), then the packet-level transformer (no embedding,
positional table of length `seq_pack_len`, one encoder block, no
projection). -/
def buildTransformer (seq_vocab_size seq_seq_len seq_pack_len class_size d_model N h d_ff : ℕ)
    (header : Bool) : Option (TransformerS × TransformerS) :=
  match mkPEshape d_model seq_seq_len with
  | none => none
  | some seq_pos =>
    match (List.range N).mapM (fun _ => mkMHA d_model h) with
    | none => none
    | some _ =>
      let projection_layer : Option (ℕ × ℕ) :=
        if header then none else some (d_model * 2, class_size)
      let transformer : TransformerS :=
        ⟨some (seq_vocab_size, d_model), seq_pos, d_model, projection_layer⟩
      match mkPEshape d_model seq_pack_len with
      | none => none
      | some pack_pos =>
        match mkMHA d_model h with
        | none => none
        | some _ =>
          let _ := d_ff
          some (transformer, ⟨none, pack_pos, d_model, none⟩)

/-- Shape-level `Transformer.embed`: a lookup of token ids of shape
`(B, L)` yields `(B, L, d_model)`; with no embedding submodule the call
fails (`None` is not callable). -/
def embedS (t : TransformerS) (B L : ℕ) : Option (ℕ × ℕ × ℕ) :=
  t.seq_embed.map fun e => (B, L, e.2)

/-- Shape-level `PositionalEncoding.forward`: `pe[:, :L, :]` keeps
`min L seq_len` rows, then the add broadcasts `(B, L, w)` against
`(1, min L seq_len, d_model)`. -/
def peForwardShape (seq_len d_model : ℕ) (x : ℕ × ℕ × ℕ) : Option (ℕ × ℕ × ℕ) :=
  (broadcastDim x.2.1 (min x.2.1 seq_len)).bind fun L =>
    (broadcastDim x.2.2 d_model).map fun w => (x.1, L, w)

/-- Compatibility of the key-length of a sequence mask (shape `(B, K)`,
expanded to `(B, h, L, K)`) with attention scores of shape
`(B, h, L, L)` in `masked_fill_`. -/
def maskOk (mask : Option ℕ) (L : ℕ) : Bool :=
  match mask with
  | none => true
  | some K => decide (K = L) || decide (K = 1) || decide (L = 1)

/-- Shape-level `Transformer.encode`: positional encoding, then the
encoder stack, whose linear layers demand feature width `encoderWidth`
and whose attention demands a broadcastable mask. -/
def encodeS (t : TransformerS) (mask : Option ℕ) (x : ℕ × ℕ × ℕ) : Option (ℕ × ℕ × ℕ) :=
  (peForwardShape t.seq_pos.1 t.seq_pos.2 x).bind fun y =>
    if y.2.2 = t.encoderWidth ∧ maskOk mask y.2.1 = true then some y else none

/-- Shape-level `Transformer.project`: fails when no projection submodule
is configured, or when the input feature width differs from the
projection's `in_features` (a matmul shape error). -/
def projectS (t : TransformerS) (x : ℕ × ℕ × ℕ) : Option (ℕ × ℕ × ℕ) :=
  t.projection_layer.bind fun pr =>
    if x.2.2 = pr.1 then some (x.1, x.2.1, pr.2) else none

/-- The end-to-end call `.project(.encode(.embed(tokens), mask))` at shape
level. -/
def chainS (t : TransformerS) (B L : ℕ) (mask : Option ℕ) : Option (ℕ × ℕ × ℕ) :=
  (embedS t B L).bind fun e => (encodeS t mask e).bind fun y => projectS t y

/-- The sequence-level transformer produced by
`build_transformer(256, 150, 10, 2)` with all defaults. -/
def seqT : TransformerS := ⟨some (256, 64), (150, 64), 64, some (128, 2)⟩

/-- The packet-level transformer produced by
`build_transformer(256, 150, 10, 2)` with all defaults. -/
def packT : TransformerS := ⟨none, (10, 64), 64, none⟩

/-- The sequence-level transformer produced by `build_transformer` with
`header=True` (projection layer omitted). -/
def seqHeaderT : TransformerS := ⟨some (256, 64), (150, 64), 64, none⟩

/-! ### Value-level embedding of the forward passes, over `ℝ` -/

/-- Softmax along the last axis (`softmax(dim=-1)`); the max-shift PyTorch
performs for numerical stability is an identity over `ℝ`. -/
noncomputable def softmax {n : ℕ} (x : Fin n → ℝ) : Fin n → ℝ :=
  fun i => Real.exp (x i) / ∑ j, Real.exp (x j)

/-- The raw scaled dot-product scores
`(query @ key.transpose(-2, -1)) / math.sqrt(d_k)` of
`MultiHeadAttentionBlock.attention`, indexed by batch element, head,
query position and key position. -/
noncomputable def attentionScoresRaw {B nh n dk : ℕ}
    (query key : Fin B → Fin nh → Fin n → Fin dk → ℝ) :
    Fin B → Fin nh → Fin n → Fin n → ℝ :=
  fun b hd p p' => (∑ j, query b hd p j * key b hd p' j) / Real.sqrt dk

/-- `attention_scores.masked_fill_(mask == 1, -1e9)` after the mask of
shape `(batch, key_len)` has been unsqueezed and expanded over the head
and query-position axes: the score at `(b, hd, p, p')` is overwritten
with `-1e9` exactly when the mask value at `(b, p')` equals `1`. -/
noncomputable def maskFill {B nh n : ℕ} (mask : Fin B → Fin n → ℕ)
    (s : Fin B → Fin nh → Fin n → Fin n → ℝ) : Fin B → Fin nh → Fin n → Fin n → ℝ :=
  fun b hd p p' => if mask b p' = 1 then -(1e9 : ℝ) else s b hd p p'

/-- The `if mask is not None` step of
`MultiHeadAttentionBlock.attention`. -/
noncomputable def applyMaskOpt {B nh n : ℕ} (mask : Option (Fin B → Fin n → ℕ))
    (s : Fin B → Fin nh → Fin n → Fin n → ℝ) : Fin B → Fin nh → Fin n → Fin n → ℝ :=
  match mask with
  | none => s
  | some m => maskFill m s

/-- The post-softmax attention weights of
`MultiHeadAttentionBlock.attention` (before dropout). -/
noncomputable def attnWeights {B nh n dk : ℕ}
    (query key : Fin B → Fin nh → Fin n → Fin dk → ℝ)
    (mask : Option (Fin B → Fin n → ℕ)) : Fin B → Fin nh → Fin n → Fin n → ℝ :=
  fun b hd p => softmax (applyMaskOpt mask (attentionScoresRaw query key) b hd p)

/-- `attention_scores @ value`, with the dropout function `dp` applied
elementwise to the weights first (the `dropout(attention_scores)`
step). -/
noncomputable def attentionOut {B nh n dk : ℕ}
    (query key value : Fin B → Fin nh → Fin n → Fin dk → ℝ)
    (mask : Option (Fin B → Fin n → ℕ)) (dp : ℝ → ℝ) :
    Fin B → Fin nh → Fin n → Fin dk → ℝ :=
  fun b hd p j => ∑ p', dp (attnWeights query key mask b hd p p') * value b hd p' j

/-- Flat feature index of head `hd`, within-head component `j`: the
row-major `view(batch, seq_len, h, d_k)` reshape of a width-`h*d_k`
feature axis. -/
def headIndex {nh dk : ℕ} (hd : Fin nh) (j : Fin dk) : Fin (nh * dk) :=
  ⟨hd.1 * dk + j.1, by
    calc hd.1 * dk + j.1 < hd.1 * dk + dk := Nat.add_lt_add_left j.isLt _
    _ = (hd.1 + 1) * dk := by ring
    _ ≤ nh * dk := Nat.mul_le_mul_right dk hd.isLt⟩

/-- Inverse of `headIndex`: which head and within-head component a flat
feature index belongs to. -/
def headSplitIdx {nh dk : ℕ} (i : Fin (nh * dk)) : Fin nh × Fin dk :=
  have hdk : 0 < dk := by
    rcases Nat.eq_zero_or_pos dk with h0 | h0
    · exact absurd i.isLt (by simp [h0])
    · exact h0
  ⟨⟨i.1 / dk, Nat.div_lt_of_lt_mul (lt_of_lt_of_eq i.isLt (Nat.mul_comm nh dk))⟩,
    ⟨i.1 % dk, Nat.mod_lt _ hdk⟩⟩

/-- A torch `Linear(din, dout, bias=False)`: `y[o] = Σ i, W[o, i] * x[i]`
(torch stores the weight as `(out_features, in_features)`). -/
noncomputable def linForward {din dout : ℕ} (W : Fin dout → Fin din → ℝ)
    (x : Fin din → ℝ) : Fin dout → ℝ :=
  fun o => ∑ i, W o i * x i

/-- The four bias-free linear maps of a `MultiHeadAttentionBlock` with
`d_model = nh * dk`. -/
structure MHAWeights (nh dk : ℕ) where
  w_q : Fin (nh * dk) → Fin (nh * dk) → ℝ
  w_k : Fin (nh * dk) → Fin (nh * dk) → ℝ
  w_v : Fin (nh * dk) → Fin (nh * dk) → ℝ
  w_o : Fin (nh * dk) → Fin (nh * dk) → ℝ

/-- `view(b, n, h, d_k).transpose(1, 2)`: reshape `(batch, seq, h*d_k)`
into `(batch, h, seq, d_k)`. -/
noncomputable def splitHeads {B n nh dk : ℕ} (x : Fin B → Fin n → Fin (nh * dk) → ℝ) :
    Fin B → Fin nh → Fin n → Fin dk → ℝ :=
  fun b hd p j => x b p (headIndex hd j)

/-- `transpose(1, 2).contiguous().view(b, -1, h * d_k)`: concatenate the
heads back into a width-`h*d_k` feature axis. -/
noncomputable def mergeHeads {B n nh dk : ℕ} (x : Fin B → Fin nh → Fin n → Fin dk → ℝ) :
    Fin B → Fin n → Fin (nh * dk) → ℝ :=
  fun b p i => x b (headSplitIdx i).1 p (headSplitIdx i).2

/-- `MultiHeadAttentionBlock.forward`: project `q`, `k`, `v` through the
bias-free linears, split into heads, run scaled dot-product attention
with the optional mask and dropout `dp` on the weights, merge the heads
and apply `w_o`. -/
noncomputable def mhaForward {B n nh dk : ℕ} (M : MHAWeights nh dk) (dp : ℝ → ℝ)
    (q k v : Fin B → Fin n → Fin (nh * dk) → ℝ)
    (mask : Option (Fin B → Fin n → ℕ)) : Fin B → Fin n → Fin (nh * dk) → ℝ :=
  let query := splitHeads fun b p => linForward M.w_q (q b p)
  let key := splitHeads fun b p => linForward M.w_k (k b p)
  let value := splitHeads fun b p => linForward M.w_v (v b p)
  fun b p => linForward M.w_o (mergeHeads (attentionOut query key value mask dp) b p)

/-- The published multi-head attention formula with no masking anywhere:
per head, `softmax((Q·Kᵀ)/√d_k)` with dropout on the weights, then the
weighted sum over values; heads concatenated and multiplied by `w_o`. -/
noncomputable def mhaUnmasked {B n nh dk : ℕ} (M : MHAWeights nh dk) (dp : ℝ → ℝ)
    (q k v : Fin B → Fin n → Fin (nh * dk) → ℝ) : Fin B → Fin n → Fin (nh * dk) → ℝ :=
  let query := splitHeads fun b p => linForward M.w_q (q b p)
  let key := splitHeads fun b p => linForward M.w_k (k b p)
  let value := splitHeads fun b p => linForward M.w_v (v b p)
  fun b p => linForward M.w_o (mergeHeads
    (fun b2 hd p2 j => ∑ p',
      dp (softmax (attentionScoresRaw query key b2 hd p2) p') * value b2 hd p' j) b p)

/-- A two-key-position sequence mask marking every position as
masked-out (value `1`). -/
def allOnesMask2 : Fin 1 → Fin 2 → ℕ := fun _ _ => 1

/-- A two-key-position sequence mask masking out position 0 only. -/
def firstPosMask2 : Fin 1 → Fin 2 → ℕ := fun _ j => if j = 0 then 1 else 0

/-- An all-zero projected query/key/value tensor with one batch element,
one head, two positions and head width one. -/
def zeroQKV2 : Fin 1 → Fin 1 → Fin 2 → Fin 1 → ℝ := fun _ _ _ _ => 0

/-- Element `i` of
`torch.exp(torch.arange(0, d_model, 2).float() * (-math.log(10000.0) / d_model))`:
the arange value is `2*i`. -/
noncomputable def peDivTerm (d_model i : ℕ) : ℝ :=
  Real.exp (2 * (i : ℝ) * (-Real.log 10000 / (d_model : ℝ)))

/-- The positional-encoding table of `PositionalEncoding.__init__`:
column `2*i` holds `sin(pos * div_term[i])` (the `pe[:, 0::2]`
assignment) and column `2*i + 1` holds `cos(pos * div_term[i])` (the
`pe[:, 1::2]` assignment). -/
noncomputable def peTable (d_model seq_len : ℕ) : ℕ → ℕ → ℝ :=
  fun pos j =>
    let _ := seq_len
    if j % 2 = 0 then Real.sin ((pos : ℝ) * peDivTerm d_model (j / 2))
    else Real.cos ((pos : ℝ) * peDivTerm d_model (j / 2))

/-- Value-level `PositionalEncoding.__init__`: the same construction-time
checks as `mkPEshape`, returning the table on success. -/
noncomputable def mkPE (d_model seq_len : ℕ) : Option (ℕ → ℕ → ℝ) :=
  if peBuildOk d_model then some (peTable d_model seq_len) else none

/-- A value-level rank-3 tensor: a shape together with entries. -/
structure Tens3 where
  batch : ℕ
  len : ℕ
  width : ℕ
  val : ℕ → ℕ → ℕ → ℝ

/-- Value-level `PositionalEncoding.forward` with dropout function `dp`:
`pe[:, :x.shape[1], :]` slices the first `min x.len seq_len` rows of the
table, then `x + slice` broadcasts `(batch, x.len, x.width)` against
`(1, min x.len seq_len, d_model)` — failing with a shape error (`none`)
when some dimension pair is incompatible — and dropout is applied to the
sum. -/
noncomputable def peForwardT (dp : ℝ → ℝ) (seq_len d_model : ℕ) (pe : ℕ → ℕ → ℝ)
    (x : Tens3) : Option Tens3 :=
  match broadcastDim x.len (min x.len seq_len), broadcastDim x.width d_model with
  | some L, some w =>
      some ⟨x.batch, L, w, fun b p j =>
        dp (x.val b (if x.len = 1 then 0 else p) (if x.width = 1 then 0 else j)
            + pe (if min x.len seq_len = 1 then 0 else p) (if d_model = 1 then 0 else j))⟩
  | _, _ => none

/-- Mean along the last axis (`x.mean(dim=-1)`). -/
noncomputable def tmean {n : ℕ} (x : Fin n → ℝ) : ℝ := (∑ i, x i) / n

/-- Standard deviation along the last axis (`x.std(dim=-1)`, torch's
default Bessel-corrected estimator dividing by `n - 1`). -/
noncomputable def tstd {n : ℕ} (x : Fin n → ℝ) : ℝ :=
  Real.sqrt ((∑ i, (x i - tmean x) ^ 2) / ((n : ℝ) - 1))

/-- The state of a `LayerNormalization` module. -/
structure LayerNorm (features : ℕ) where
  eps : ℝ
  alpha : Fin features → ℝ
  bias : Fin features → ℝ

/-- `LayerNormalization.__init__`: `alpha = torch.ones(features)`,
`bias = torch.zeros(features)`. -/
def layerNormInit (features : ℕ) (eps : ℝ) : LayerNorm features :=
  ⟨eps, fun _ => 1, fun _ => 0⟩

/-- `LayerNormalization.forward` on a `(batch, seq_len, features)` input:
`alpha * (x - mean) / (std + eps) + bias`, with mean and std taken along
the last axis (`keepdim=True` broadcasts them back over it). -/
noncomputable def layerNormForward {B L n : ℕ} (ln : LayerNorm n)
    (x : Fin B → Fin L → Fin n → ℝ) : Fin B → Fin L → Fin n → ℝ :=
  fun b l j => ln.alpha j * (x b l j - tmean (x b l)) / (tstd (x b l) + ln.eps) + ln.bias j

/-- The configuration object consumed by `explainer_model`, with the
fields it reads. -/
structure ExplainerCfg (β : Type) where
  BYTE_PAD_TRUNC_LENGTH : ℕ
  HEADER_BYTE_PAD_TRUNC_LENGTH : ℕ
  baseline : β

/-- The learnable state of `explainer_model`: exactly two importance-mask
vectors, one slot per byte value 0–255 plus one padding/unknown slot. -/
structure ExplainerModel where
  mask_header : Fin 257 → ℝ
  mask_payload : Fin 257 → ℝ

/-- `explainer_model.__init__`: both masks are `torch.ones(257)`. -/
def explainerInit : ExplainerModel := ⟨fun _ => 1, fun _ => 1⟩

/-- `torch.sigmoid`. -/
noncomputable def sigmoid (x : ℝ) : ℝ := 1 / (1 + Real.exp (-x))

/-- `torch.cat([a, b], dim=1)` for two `(batch, d_model)` tensors, the
first of width `d_model`. -/
def cat2 (d_model : ℕ) (a b : ℕ → ℕ → ℝ) : ℕ → ℕ → ℝ :=
  fun i j => if j < d_model then a i j else b i (j - d_model)

/-- `explainer_model.forward`: calls the external `compute_emb` routine
(abstracted as the argument `computeEmb`, with the argument order of the
source) once per stream, passing `torch.sigmoid(self.mask_payload)`
resp. `torch.sigmoid(self.mask_header)` as the value-weight argument,
concatenates the two pooled embeddings along the feature axis, and
projects through the sequence-level model's projection layer (abstracted
as `project`). -/
noncomputable def explainerForward {Mdl Seq Msk Bl Out : Type}
    (em : ExplainerModel) (cfg : ExplainerCfg Bl)
    (computeEmb : Mdl → Mdl → Seq → Msk → ℕ → (Fin 257 → ℝ) → Bl → (ℕ → ℕ → ℝ))
    (project : (ℕ → ℕ → ℝ) → Out) (d_model : ℕ)
    (model header_model model_pack header_model_pack : Mdl)
    (seq : Seq) (mask : Msk) (seq_header : Seq) (seq_header_mask : Msk) : Out :=
  let seq_emb := computeEmb model model_pack seq mask cfg.BYTE_PAD_TRUNC_LENGTH
    (fun i => sigmoid (em.mask_payload i)) cfg.baseline
  let header_emb := computeEmb header_model header_model_pack seq_header seq_header_mask
    cfg.HEADER_BYTE_PAD_TRUNC_LENGTH (fun i => sigmoid (em.mask_header i)) cfg.baseline
  project (cat2 d_model seq_emb header_emb)

/-- C1, claim as stated is false: `build_transformer(256, 150, 10, 2)`
does return two Transformer objects, but on the first of them the call
`.project(.encode(.embed(tokens), mask))` (here at batch 1, length 150,
mask length 150) does not produce a `(batch, seq_len, 2)` tensor — it
fails (`none`), because the projection layer was built with input width
`2 * d_model = 128` while `encode` outputs width `d_model = 64`. -/
theorem c1_counterexample :
    (buildTransformer 256 150 10 2 64 3 4 128 false).map
        (fun p => chainS p.1 1 150 (some 150)) = some none ∧
      some none ≠ some (some (1, 150, 2)) := by
  decide

/-- C1 (amended): `build_transformer(256, 150, 10, 2)` returns two
Transformer objects, and the first carries a projection layer of shape
`2 * d_model = 128 → 2`; but for every batch size, input length and mask,
`.project(.encode(.embed(tokens), mask))` on it fails with a shape error
(the projection expects width 128 while `encode` outputs width 64), so no
`(batch, seq_len, 2)` tensor is ever produced. -/
theorem c1_amended (t1 t2 : TransformerS)
    (hbuild : buildTransformer 256 150 10 2 64 3 4 128 false = some (t1, t2))
    (B L : ℕ) (mask : Option ℕ) :
    t1.projection_layer = some (128, 2) ∧ chainS t1 B L mask = none := by
  have hb : buildTransformer 256 150 10 2 64 3 4 128 false = some (seqT, packT) := by decide
  rw [hb] at hbuild
  obtain ⟨h1, h2⟩ : seqT = t1 ∧ packT = t2 := by
    have := Option.some.inj hbuild
    exact ⟨congrArg Prod.fst this, congrArg Prod.snd this⟩
  subst h1
  refine ⟨rfl, ?_⟩
  have hchain : chainS seqT B L mask
      = (encodeS seqT mask (B, L, 64)).bind fun y => projectS seqT y := rfl
  rw [hchain]
  rcases henc : encodeS seqT mask (B, L, 64) with _ | y
  · rfl
  · have henc' : (peForwardShape 150 64 ((B, L, 64) : ℕ × ℕ × ℕ)).bind
        (fun z => if z.2.2 = 64 ∧ maskOk mask z.2.1 = true then some z else none) = some y := henc
    have hpe : peForwardShape 150 64 ((B, L, 64) : ℕ × ℕ × ℕ)
        = (broadcastDim L (min L 150)).bind fun L' => some ((B, L', 64) : ℕ × ℕ × ℕ) := rfl
    rw [hpe] at henc'
    have hy : y.2.2 = 64 := by
      rcases hbd : broadcastDim L (min L 150) with _ | L'
      · rw [hbd] at henc'
        exact absurd henc' (by simp)
      · rw [hbd] at henc'
        simp only [Option.some_bind] at henc'
        split_ifs at henc' with hcond
        rw [← Option.some.inj henc']
    show projectS seqT y = none
    have : projectS seqT y = if y.2.2 = 128 then some (y.1, y.2.1, 2) else none := rfl
    rw [this, hy]
    simp

/-- Witness for `c1_amended` at batch 1, length 150, mask length 150. -/
theorem c1_amended_witness :
    buildTransformer 256 150 10 2 64 3 4 128 false = some (seqT, packT) ∧
      (seqT.projection_layer = some (128, 2) ∧ chainS seqT 1 150 (some 150) = none) :=
  ⟨by decide, c1_amended seqT packT (by decide) 1 150 (some 150)⟩

/-- C3: constructing a `MultiHeadAttentionBlock` succeeds in the
`d_model % h == 0` check exactly when `h` divides `d_model` (for a
positive head count), and in particular `d_model = 64`, `h = 5` fails —
as does `build_transformer` with those sizes — while the default
`d_model = 64`, `h = 4` succeeds. -/
theorem c3_divisibility :
    (∀ d_model h, h ≠ 0 → ((mkMHA d_model h).isSome ↔ h ∣ d_model)) ∧
      mkMHA 64 5 = none ∧
      buildTransformer 256 150 10 2 64 3 5 128 false = none ∧
      (mkMHA 64 4).isSome = true := by
  refine ⟨?_, by decide, by decide, by decide⟩
  intro d_model h hh
  simp only [mkMHA, pymod, if_neg hh]
  rw [Nat.dvd_iff_mod_eq_zero]
  by_cases hr : d_model % h = 0 <;> simp [hr]

/-- Witness for `c3_divisibility` at the default sizes `d_model = 64`,
`h = 4`. -/
theorem c3_witness :
    (4 ≠ 0) ∧ ((mkMHA 64 4).isSome ↔ 4 ∣ 64) :=
  ⟨by decide, c3_divisibility.1 64 4 (by decide)⟩

/-- C7: the packet-level transformer is built with `seq_embed = None` and
`projection_layer = None`, and the `header=True` sequence-level
transformer with `projection_layer = None`; calling `embed` on the
former, or `project` on either, fails for every input because the
submodule is absent (`None`), with no domain-specific check anywhere in
the call path. -/
theorem c7_missing_submodules (t1 t2 t1h t2h : TransformerS)
    (hb : buildTransformer 256 150 10 2 64 3 4 128 false = some (t1, t2))
    (hbh : buildTransformer 256 150 10 2 64 3 4 128 true = some (t1h, t2h))
    (B L : ℕ) (x y : ℕ × ℕ × ℕ) :
    t2.seq_embed = none ∧ t2.projection_layer = none ∧ t1h.projection_layer = none ∧
      embedS t2 B L = none ∧ projectS t2 x = none ∧ projectS t1h y = none := by
  have h1 : buildTransformer 256 150 10 2 64 3 4 128 false = some (seqT, packT) := by decide
  have h2 : buildTransformer 256 150 10 2 64 3 4 128 true = some (seqHeaderT, packT) := by decide
  rw [h1] at hb; rw [h2] at hbh
  have e1 := Option.some.inj hb
  have e2 := Option.some.inj hbh
  have ht2 : packT = t2 := congrArg Prod.snd e1
  have ht1h : seqHeaderT = t1h := congrArg Prod.fst e2
  subst ht2; subst ht1h
  exact ⟨rfl, rfl, rfl, rfl, rfl, rfl⟩

/-- Witness for `c7_missing_submodules` at batch 1, length 10 and a
concrete hidden-state shape. -/
theorem c7_witness :
    packT.seq_embed = none ∧ packT.projection_layer = none ∧
      seqHeaderT.projection_layer = none ∧ embedS packT 1 10 = none ∧
      projectS packT (1, 10, 64) = none ∧ projectS seqHeaderT (1, 150, 64) = none :=
  c7_missing_submodules seqT packT seqHeaderT packT (by decide) (by decide) 1 10
    (1, 10, 64) (1, 150, 64)

/-- C9, claim as stated is false: `d_model = 1` is odd, yet
`PositionalEncoding` construction succeeds (the single-column cosine
right-hand side broadcasts into the empty odd-index slice), and
`build_transformer` with `d_model = 1`, `h = 1` builds successfully. -/
theorem c9_counterexample :
    1 % 2 = 1 ∧ mkPEshape 1 150 = some (150, 1) ∧
      (buildTransformer 256 150 10 2 1 3 1 128 false).isSome = true := by
  decide

/-- C9 (amended): for every odd `d_model ≥ 3` the cosine assignment of
`PositionalEncoding.__init__` writes `(d_model+1)/2` columns into the
`d_model/2`-column odd-index slice and construction fails; in particular
`d_model = 63`, `h = 1` passes the divisibility check (`63 % 1 = 0`) yet
`build_transformer` fails.  Only the degenerate odd width `d_model = 1`
constructs, via broadcasting into the empty slice. -/
theorem c9_amended :
    (∀ d_model seq_len, d_model % 2 = 1 → 3 ≤ d_model → mkPEshape d_model seq_len = none) ∧
      63 % 1 = 0 ∧
      buildTransformer 256 150 10 2 63 3 1 128 false = none := by
  refine ⟨?_, by decide, by decide⟩
  intro d s hodd h3
  have hok : peBuildOk d = false := by
    simp only [peBuildOk, Bool.and_eq_false_iff, Bool.or_eq_false_iff, decide_eq_false_iff_not]
    right
    constructor <;> omega
  simp [mkPEshape, hok]

/-- Witness for `c9_amended` at `d_model = 63`, `seq_len = 150`. -/
theorem c9_amended_witness :
    63 % 2 = 1 ∧ 3 ≤ 63 ∧ mkPEshape 63 150 = none :=
  ⟨by decide, by decide, c9_amended.1 63 150 (by decide) (by decide)⟩

/-- C2, claim as stated is false: in a row in which all key positions are
masked, every score is forced to `-1e9` and softmax returns the uniform
distribution, so a masked position receives weight `1/2` (with two key
positions), not approximately `0`. -/
theorem c2_counterexample :
    allOnesMask2 0 0 = 1 ∧
      attnWeights zeroQKV2 zeroQKV2 (some allOnesMask2) 0 0 0 0 = 1 / 2 := by
  refine ⟨rfl, ?_⟩
  have hS : applyMaskOpt (some allOnesMask2) (attentionScoresRaw zeroQKV2 zeroQKV2) 0 0 0
      = fun _ => -(1e9 : ℝ) := by
    funext p'
    simp [applyMaskOpt, maskFill, allOnesMask2]
  show softmax (applyMaskOpt (some allOnesMask2) (attentionScoresRaw zeroQKV2 zeroQKV2) 0 0 0) 0
      = 1 / 2
  rw [hS]
  simp only [softmax, Fin.sum_univ_two]
  rw [div_eq_div_iff (by positivity) (by norm_num)]
  ring

/-- C2 (amended): a masked-out key position (mask value `1`, score forced
to `-1e9`) receives post-softmax weight at most `exp (-1e9 - s)` for any
unmasked position of raw score `s`; in particular the weight is below
`10⁻⁹` whenever some unmasked key position has raw score at least
`-1e9 + 21`.  (When every key position of a row is masked this fails: the
weights are uniform `1/n`, see the counterexample.)  This holds for every
batch element, head and query position, the mask being broadcast over the
head and query axes. -/
theorem c2_amended {B nh n dk : ℕ}
    (query key : Fin B → Fin nh → Fin n → Fin dk → ℝ)
    (m : Fin B → Fin n → ℕ) (b : Fin B) (hd : Fin nh) (p i k : Fin n)
    (hmask : m b i = 1) (hunmask : m b k ≠ 1)
    (hscore : -(1e9 : ℝ) + 21 ≤ attentionScoresRaw query key b hd p k) :
    attnWeights query key (some m) b hd p i ≤ Real.exp (-21) ∧
      Real.exp (-21) < 1e-9 := by
  constructor
  · have hSi : applyMaskOpt (some m) (attentionScoresRaw query key) b hd p i = -(1e9 : ℝ) := by
      simp [applyMaskOpt, maskFill, hmask]
    have hSk : applyMaskOpt (some m) (attentionScoresRaw query key) b hd p k
        = attentionScoresRaw query key b hd p k := by
      simp [applyMaskOpt, maskFill, hunmask]
    show softmax (applyMaskOpt (some m) (attentionScoresRaw query key) b hd p) i
        ≤ Real.exp (-21)
    set S := applyMaskOpt (some m) (attentionScoresRaw query key) b hd p with hSdef
    have hsum : Real.exp (S k) ≤ ∑ j, Real.exp (S j) :=
      Finset.single_le_sum (fun j _ => (Real.exp_pos (S j)).le) (Finset.mem_univ k)
    calc softmax S i = Real.exp (S i) / ∑ j, Real.exp (S j) := rfl
      _ ≤ Real.exp (S i) / Real.exp (S k) :=
        div_le_div_of_nonneg_left (Real.exp_pos _).le (Real.exp_pos _) hsum
      _ = Real.exp (S i - S k) := (Real.exp_sub _ _).symm
      _ ≤ Real.exp (-21) := by
        apply Real.exp_le_exp.mpr
        rw [hSi, hSk]
        linarith
  · have hpow : (1e9 : ℝ) < Real.exp 21 := by
      have he : (2.7 : ℝ) < Real.exp 1 := lt_trans (by norm_num) Real.exp_one_gt_d9
      have h1 : (2.7 : ℝ) ^ (21 : ℕ) < Real.exp 1 ^ (21 : ℕ) :=
        pow_lt_pow_left₀ he (by norm_num) (by norm_num)
      have h2 : Real.exp 1 ^ (21 : ℕ) = Real.exp 21 := by
        rw [← Real.exp_nat_mul]
        norm_num
      have h3 : (1e9 : ℝ) < (2.7 : ℝ) ^ (21 : ℕ) := by norm_num
      linarith
    have h4 : Real.exp (-21 : ℝ) = (Real.exp 21)⁻¹ := Real.exp_neg 21
    rw [h4, show (1e-9 : ℝ) = ((1e9 : ℝ))⁻¹ by norm_num]
    exact inv_strictAnti₀ (by norm_num) hpow

/-- Witness for `c2_amended`: two key positions, position 0 masked,
position 1 unmasked with raw score `0`. -/
theorem c2_amended_witness :
    firstPosMask2 0 0 = 1 ∧ firstPosMask2 0 1 ≠ 1 ∧
      (-(1e9 : ℝ) + 21 ≤ attentionScoresRaw zeroQKV2 zeroQKV2 0 0 0 1) ∧
      (attnWeights zeroQKV2 zeroQKV2 (some firstPosMask2) 0 0 0 0 ≤ Real.exp (-21) ∧
        Real.exp (-21) < 1e-9) :=
  ⟨rfl, by decide,
    by norm_num [attentionScoresRaw, zeroQKV2],
    c2_amended zeroQKV2 zeroQKV2 firstPosMask2 0 0 0 0 1 rfl (by decide)
      (by norm_num [attentionScoresRaw, zeroQKV2])⟩

/-- C10: with `mask = None`, `MultiHeadAttentionBlock.forward` applies no
masking at all: for every batch of query/key/value inputs of shape
`(batch, seq_len, h*d_k)` its output is exactly the multi-head
combination of `softmax((Q·Kᵀ)/√d_k)·V` (with dropout on the weights)
over the unmodified scores. -/
theorem c10_no_mask {B n nh dk : ℕ} (M : MHAWeights nh dk) (dp : ℝ → ℝ)
    (q k v : Fin B → Fin n → Fin (nh * dk) → ℝ) :
    mhaForward M dp q k v none = mhaUnmasked M dp q k v :=
  rfl

/-- C4: whenever `PositionalEncoding` construction succeeds, the table
satisfies `pe[pos, 2i] = sin(pos / 10000^(2i/d_model))` and
`pe[pos, 2i+1] = cos(pos / 10000^(2i/d_model))` exactly, for every
position `pos < seq_len` and feature index with `2i+1 < d_model`.  (In
the embedding the table is a pure function fixed at construction, so it
is never mutated afterwards; `forward` only reads it.) -/
theorem c4_pe_values (d_model seq_len : ℕ) (pe : ℕ → ℕ → ℝ)
    (hpe : mkPE d_model seq_len = some pe) (pos i : ℕ)
    (hpos : pos < seq_len) (hi : 2 * i + 1 < d_model) :
    pe pos (2 * i) = Real.sin ((pos : ℝ) / (10000 : ℝ) ^ (2 * (i : ℝ) / (d_model : ℝ))) ∧
      pe pos (2 * i + 1) = Real.cos ((pos : ℝ) / (10000 : ℝ) ^ (2 * (i : ℝ) / (d_model : ℝ))) := by
  have hpe' : pe = peTable d_model seq_len := by
    by_cases hok : peBuildOk d_model
    · rw [mkPE, if_pos hok] at hpe
      exact (Option.some.inj hpe).symm
    · rw [mkPE, if_neg hok] at hpe
      exact absurd hpe (by simp)
  subst hpe'
  have hkey : (pos : ℝ) * peDivTerm d_model i
      = (pos : ℝ) / (10000 : ℝ) ^ (2 * (i : ℝ) / (d_model : ℝ)) := by
    rw [peDivTerm, Real.rpow_def_of_pos (by norm_num : (0 : ℝ) < 10000),
      eq_div_iff (Real.exp_ne_zero _), mul_assoc, ← Real.exp_add,
      show 2 * (i : ℝ) * (-Real.log 10000 / (d_model : ℝ))
          + Real.log 10000 * (2 * (i : ℝ) / (d_model : ℝ)) = 0 from by ring,
      Real.exp_zero, mul_one]
  constructor
  · rw [peTable]
    simp only [if_pos (by omega : 2 * i % 2 = 0)]
    rw [show 2 * i / 2 = i from by omega, hkey]
  · rw [peTable]
    rw [if_neg (by omega : ¬(2 * i + 1) % 2 = 0)]
    rw [show (2 * i + 1) / 2 = i from by omega, hkey]

/-- Witness for `c4_pe_values` at `d_model = 2`, `seq_len = 1`,
`pos = 0`, `i = 0`. -/
theorem c4_witness :
    mkPE 2 1 = some (peTable 2 1) ∧ 0 < 1 ∧ 2 * 0 + 1 < 2 ∧
      (peTable 2 1 0 (2 * 0)
          = Real.sin (((0 : ℕ) : ℝ) / (10000 : ℝ) ^ (2 * ((0 : ℕ) : ℝ) / ((2 : ℕ) : ℝ))) ∧
        peTable 2 1 0 (2 * 0 + 1)
          = Real.cos (((0 : ℕ) : ℝ) / (10000 : ℝ) ^ (2 * ((0 : ℕ) : ℝ) / ((2 : ℕ) : ℝ)))) :=
  ⟨rfl, by decide, by decide, c4_pe_values 2 1 (peTable 2 1) rfl 0 0 (by decide) (by decide)⟩

/-- C5, claim as stated is false: an input whose sequence length (here 3)
exceeds the construction-time table length (here 2) does not complete
using the truncated rows — the slice does truncate, but the subsequent
addition fails to broadcast `(1, 3, 1)` against `(1, 2, 1)`, raising a
shape error (`none`). -/
theorem c5_counterexample :
    peForwardT id 2 1 (fun _ _ => (0 : ℝ)) ⟨1, 3, 1, fun _ _ _ => 0⟩ = none :=
  rfl

/-- C5 (amended): for inputs with sequence length at most `seq_len`, the
call completes and adds exactly the first `x.len` rows of the table to
the input before dropout; but for inputs with sequence length exceeding
`seq_len` (whenever `seq_len ≥ 2`), the sliced table has `seq_len` rows
and the addition raises a broadcast shape error instead of completing. -/
theorem c5_amended :
    (∀ (dp : ℝ → ℝ) (seq_len d_model : ℕ) (pe : ℕ → ℕ → ℝ) (x : Tens3),
        x.len ≤ seq_len → x.width = d_model →
        ∃ y : Tens3, peForwardT dp seq_len d_model pe x = some y ∧
          y.batch = x.batch ∧ y.len = x.len ∧ y.width = d_model ∧
          ∀ b p j, p < x.len → j < d_model → y.val b p j = dp (x.val b p j + pe p j)) ∧
      (∀ (dp : ℝ → ℝ) (seq_len d_model : ℕ) (pe : ℕ → ℕ → ℝ) (x : Tens3),
        2 ≤ seq_len → seq_len < x.len →
        peForwardT dp seq_len d_model pe x = none) := by
  constructor
  · intro dp S d pe x hL hw
    have hmin : min x.len S = x.len := min_eq_left hL
    have h1 : broadcastDim x.len (min x.len S) = some x.len := by
      rw [hmin, broadcastDim, if_pos rfl]
    have h2 : broadcastDim x.width d = some d := by
      rw [hw, broadcastDim, if_pos rfl]
    refine ⟨⟨x.batch, x.len, d, fun b p j =>
      dp (x.val b (if x.len = 1 then 0 else p) (if x.width = 1 then 0 else j)
          + pe (if min x.len S = 1 then 0 else p) (if d = 1 then 0 else j))⟩,
      ?_, rfl, rfl, rfl, ?_⟩
    · rw [peForwardT, h1, h2]
    · intro b p j hp hj
      have e1 : (if x.len = 1 then 0 else p) = p := by
        by_cases h : x.len = 1
        · rw [if_pos h]
          omega
        · rw [if_neg h]
      have e2 : (if x.width = 1 then 0 else j) = j := by
        by_cases h : x.width = 1
        · rw [if_pos h]
          omega
        · rw [if_neg h]
      have e3 : (if min x.len S = 1 then 0 else p) = p := by
        rw [hmin]
        exact e1
      have e4 : (if d = 1 then 0 else j) = j := by
        by_cases h : d = 1
        · rw [if_pos h]
          omega
        · rw [if_neg h]
      simp only [e1, e2, e3, e4]
  · intro dp S d pe x h2S hlt
    have hmin : min x.len S = S := min_eq_right (le_of_lt hlt)
    have h1 : broadcastDim x.len (min x.len S) = none := by
      rw [hmin, broadcastDim, if_neg (by omega), if_neg (by omega), if_neg (by omega)]
    rw [peForwardT, h1]

/-- Witness for `c5_amended`, first part, at a length-1 input under a
length-2 table. -/
theorem c5_amended_witness :
    ((⟨1, 1, 1, fun _ _ _ => 0⟩ : Tens3).len ≤ 2) ∧
      ((⟨1, 1, 1, fun _ _ _ => 0⟩ : Tens3).width = 1) ∧
      (∃ y : Tens3, peForwardT id 2 1 (fun _ _ => (0 : ℝ)) ⟨1, 1, 1, fun _ _ _ => 0⟩ = some y ∧
        y.batch = (⟨1, 1, 1, fun _ _ _ => 0⟩ : Tens3).batch ∧
        y.len = (⟨1, 1, 1, fun _ _ _ => 0⟩ : Tens3).len ∧ y.width = 1 ∧
        ∀ b p j, p < (⟨1, 1, 1, fun _ _ _ => 0⟩ : Tens3).len → j < 1 →
          y.val b p j = id ((⟨1, 1, 1, fun _ _ _ => 0⟩ : Tens3).val b p j + (fun _ _ => (0 : ℝ)) p j)) :=
  ⟨by norm_num, rfl,
    c5_amended.1 id 2 1 (fun _ _ => (0 : ℝ)) ⟨1, 1, 1, fun _ _ _ => 0⟩ (by norm_num) rfl⟩

/-- C6: `LayerNormalization.forward` returns
`alpha * (x - mean) / (std + eps) + bias` elementwise, where the mean and
the (Bessel-corrected) standard deviation are taken along the last axis
only, and the learnable vectors are initialized to all-ones (`alpha`) and
all-zeros (`bias`). -/
theorem c6_layernorm {B L n : ℕ} (ln : LayerNorm n) (x : Fin B → Fin L → Fin n → ℝ)
    (b : Fin B) (l : Fin L) (j : Fin n) (eps : ℝ) :
    layerNormForward ln x b l j
        = ln.alpha j * (x b l j - (∑ i, x b l i) / (n : ℝ)) /
            (Real.sqrt ((∑ i, (x b l i - (∑ i2, x b l i2) / (n : ℝ)) ^ 2) / ((n : ℝ) - 1))
              + ln.eps) + ln.bias j ∧
      (layerNormInit n eps).alpha j = 1 ∧ (layerNormInit n eps).bias j = 0 :=
  ⟨rfl, rfl, rfl⟩

/-- C8: `explainer_model` holds two importance-mask vectors of length
257, initialized to all-ones; `forward` passes `sigmoid(mask_payload)`
and `sigmoid(mask_header)` as the value-weight arguments of the two
`compute_emb` calls, so at initialization every byte value receives the
uniform weight `σ(1) ≈ 0.731` (strictly between `0.731` and `0.7311`). -/
theorem c8_explainer {Mdl Seq Msk Bl Out : Type} (cfg : ExplainerCfg Bl)
    (computeEmb : Mdl → Mdl → Seq → Msk → ℕ → (Fin 257 → ℝ) → Bl → (ℕ → ℕ → ℝ))
    (project : (ℕ → ℕ → ℝ) → Out) (d_model : ℕ)
    (model header_model model_pack header_model_pack : Mdl)
    (seq : Seq) (mask : Msk) (seq_header : Seq) (seq_header_mask : Msk) (v : Fin 257) :
    explainerInit.mask_payload v = 1 ∧ explainerInit.mask_header v = 1 ∧
      explainerForward explainerInit cfg computeEmb project d_model model header_model
          model_pack header_model_pack seq mask seq_header seq_header_mask
        = project (cat2 d_model
            (computeEmb model model_pack seq mask cfg.BYTE_PAD_TRUNC_LENGTH
              (fun _ => sigmoid 1) cfg.baseline)
            (computeEmb header_model header_model_pack seq_header seq_header_mask
              cfg.HEADER_BYTE_PAD_TRUNC_LENGTH (fun _ => sigmoid 1) cfg.baseline)) ∧
      (0.731 < sigmoid 1 ∧ sigmoid 1 < 0.7311) := by
  have hp : (0 : ℝ) < Real.exp 1 := Real.exp_pos 1
  have key : sigmoid 1 = Real.exp 1 / (Real.exp 1 + 1) := by
    rw [sigmoid, Real.exp_neg, eq_div_iff (by positivity)]
    field_simp
  refine ⟨rfl, rfl, rfl, ?_, ?_⟩
  · have he1 := Real.exp_one_gt_d9
    rw [key, lt_div_iff₀ (by positivity)]
    nlinarith
  · have he2 := Real.exp_one_lt_d9
    rw [key, div_lt_iff₀ (by positivity)]
    nlinarith

end ByteExplainer
